import Mathlib

/-!
Verification of the fileutils library (Go): a shallow embedding in Lean 4 of
the size-stability prober, the guarded copy routine, the CSV-to-map decoder
and the recursive directory lister, together with theorems settling the
specified properties.

Modelling conventions:
  * A stat history of one path is a function from sample index to
    Option Int: some size when os.Stat succeeds and the mode is a regular
    file, none when the stat fails or the path is not a regular file.
  * The filesystem content is a function from path to Option (List Nat):
    some bytes when the file exists and can be opened, none otherwise.
  * time.Sleep has no observable effect in the model; the settle argument
    is carried but inert, exactly as in the source it only delays.
-/

namespace Fileutils

/-- Effective attempt count of waitStableSize: the source coerces
attempts to at least 3 before looping (fileutils.go line 155). -/
def effAttempts (attempts : Int) : Nat :=
  (if attempts < 3 then (3 : Int) else attempts).toNat

/-- The sampling loop of waitStableSize (fileutils.go lines 159-174),
instrumented with the number of samples actually taken. Each iteration
stats the path (one lookup in the history), returns false on a failed
stat, returns true when a sample from the second onward equals the
immediately preceding one, and otherwise records the sample and goes on. -/
def waitLoop (sample : Nat → Option Int) : Nat → Nat → Int → Bool × Nat
  | 0, _, _ => (false, 0)
  | fuel + 1, i, prev =>
    match sample i with
    | none => (false, 1)
    | some size =>
      if 0 < i ∧ size = prev then (true, 1)
      else
        let r := waitLoop sample fuel (i + 1) size
        (r.1, r.2 + 1)

/-- waitStableSize (fileutils.go lines 154-175), instrumented run:
coerce attempts to at least 3, then loop from sample 0 with prev = -1.
Returns the boolean decision and the number of samples taken. -/
def waitStableSizeRun (sample : Nat → Option Int) (attempts : Int)
    (settle : Int) : Bool × Nat :=
  waitLoop sample (effAttempts attempts) 0 (-1)

/-- waitStableSize as in the source: the boolean decision alone. -/
def waitStableSize (sample : Nat → Option Int) (attempts : Int)
    (settle : Int) : Bool :=
  (waitStableSizeRun sample attempts settle).1

theorem waitLoop_zero (sample : Nat → Option Int) (i : Nat) (prev : Int) :
    waitLoop sample 0 i prev = (false, 0) := rfl

theorem waitLoop_succ (sample : Nat → Option Int) (fuel i : Nat) (prev : Int) :
    waitLoop sample (fuel + 1) i prev =
      match sample i with
      | none => (false, 1)
      | some size =>
        if 0 < i ∧ size = prev then (true, 1)
        else
          ((waitLoop sample fuel (i + 1) size).1,
           (waitLoop sample fuel (i + 1) size).2 + 1) := rfl

theorem effAttempts_of_lt (a : Int) (h : a < 3) : effAttempts a = 3 := by
  simp [effAttempts, h]

theorem effAttempts_of_ge (a : Int) (h : 3 ≤ a) :
    effAttempts a = a.toNat := by
  simp [effAttempts, not_lt.mpr h]

/-- A constant successful stat history is declared stable at the second
sample: the run returns true having taken exactly 2 samples, whatever
the attempt budget resolves to (the effective budget is always at least 3). -/
theorem waitStableSizeRun_const (sample : Nat → Option Int) (s : Int)
    (attempts settle : Int) (h : ∀ i, sample i = some s) :
    waitStableSizeRun sample attempts settle = (true, 2) := by
  have h3 : 3 ≤ effAttempts attempts := by
    unfold effAttempts
    split
    · simp
    · omega
  obtain ⟨m, hm⟩ : ∃ m, effAttempts attempts = m + 1 + 1 + 1 := by
    refine ⟨effAttempts attempts - 3, ?_⟩
    omega
  unfold waitStableSizeRun
  rw [hm, waitLoop_succ, h 0]
  simp only [lt_irrefl, false_and, if_false]
  rw [waitLoop_succ, h 1]
  simp

theorem waitLoop_succ_none (sample : Nat → Option Int) (fuel i : Nat)
    (prev : Int) (h : sample i = none) :
    waitLoop sample (fuel + 1) i prev = (false, 1) := by
  rw [waitLoop_succ, h]

theorem waitLoop_succ_some_eq (sample : Nat → Option Int) (fuel i : Nat)
    (prev s : Int) (h : sample i = some s) (hc : 0 < i ∧ s = prev) :
    waitLoop sample (fuel + 1) i prev = (true, 1) := by
  rw [waitLoop_succ, h]
  simp [hc]

theorem waitLoop_succ_some_ne (sample : Nat → Option Int) (fuel i : Nat)
    (prev s : Int) (h : sample i = some s) (hc : ¬(0 < i ∧ s = prev)) :
    waitLoop sample (fuel + 1) i prev =
      ((waitLoop sample fuel (i + 1) s).1,
       (waitLoop sample fuel (i + 1) s).2 + 1) := by
  rw [waitLoop_succ, h]
  simp [hc]

/-- If k is the first index at which a sample equals its predecessor, and
all samples up to k succeed, the loop started anywhere at or before k
stops at k with answer true, having taken k + 1 - i further samples. -/
theorem waitLoop_first_eq (sample : Nat → Option Int) (k : Nat) (hk1 : 1 ≤ k)
    (hsome : ∀ j, j ≤ k → (sample j).isSome)
    (heq : sample k = sample (k - 1))
    (hne : ∀ j, 1 ≤ j → j < k → sample j ≠ sample (j - 1)) :
    ∀ fuel i prev, i ≤ k → k < i + fuel →
      (i = 0 ∨ sample (i - 1) = some prev) →
      waitLoop sample fuel i prev = (true, k + 1 - i) := by
  intro fuel
  induction fuel with
  | zero => intro i prev hik hkf _; omega
  | succ fuel ih =>
    intro i prev hik hkf hprev
    obtain ⟨s, hs⟩ := Option.isSome_iff_exists.mp (hsome i hik)
    by_cases hcond : 0 < i ∧ s = prev
    · have hi0 : i ≠ 0 := by omega
      have hpv : sample (i - 1) = some prev := hprev.resolve_left hi0
      have hieq : sample i = sample (i - 1) := by
        rw [hs, hpv, hcond.2]
      have hik2 : i = k := by
        by_contra hne2
        exact hne i hcond.1 (by omega) hieq
      rw [waitLoop_succ_some_eq sample fuel i prev s hs hcond]
      subst hik2
      simp
    · have hik2 : i < k := by
        rcases Nat.lt_or_ge i k with h | h
        · exact h
        · exfalso
          have hik3 : i = k := by omega
          subst hik3
          have hpv : sample (i - 1) = some prev := hprev.resolve_left (by omega)
          rw [hs, hpv] at heq
          exact hcond ⟨by omega, Option.some_injective _ heq⟩
      rw [waitLoop_succ_some_ne sample fuel i prev s hs hcond]
      rw [ih (i + 1) s (by omega) (by omega) (Or.inr (by simpa using hs))]
      simp
      omega

/-- If every sample in the window succeeds and no sample equals its
predecessor, the loop runs out of fuel and answers false, having taken
exactly fuel samples. -/
theorem waitLoop_exhaust (sample : Nat → Option Int) :
    ∀ fuel i prev,
      (∀ j, i ≤ j → j < i + fuel → (sample j).isSome) →
      (∀ j, 1 ≤ j → i ≤ j → j < i + fuel → sample j ≠ sample (j - 1)) →
      (i = 0 ∨ sample (i - 1) = some prev) →
      waitLoop sample fuel i prev = (false, fuel) := by
  intro fuel
  induction fuel with
  | zero => intro i prev _ _ _; exact waitLoop_zero sample i prev
  | succ fuel ih =>
    intro i prev hsome hne hprev
    obtain ⟨s, hs⟩ := Option.isSome_iff_exists.mp (hsome i (le_refl i) (by omega))
    have hcond : ¬(0 < i ∧ s = prev) := by
      rintro ⟨hi, hsp⟩
      have hpv : sample (i - 1) = some prev := hprev.resolve_left (by omega)
      exact hne i hi (le_refl i) (by omega) (by rw [hs, hpv, hsp])
    rw [waitLoop_succ_some_ne sample fuel i prev s hs hcond]
    rw [ih (i + 1) s (fun j h1 h2 => hsome j (by omega) (by omega))
      (fun j h1 h2 h3 => hne j h1 (by omega) (by omega))
      (Or.inr (by simpa using hs))]

/-- If the sample at index j fails while every earlier sample succeeds
and no earlier sample equals its predecessor, the loop stops at j with
answer false, having taken j + 1 - i further samples. -/
theorem waitLoop_fail (sample : Nat → Option Int) (j : Nat)
    (hnone : sample j = none)
    (hsome : ∀ m, m < j → (sample m).isSome)
    (hne : ∀ m, 1 ≤ m → m < j → sample m ≠ sample (m - 1)) :
    ∀ fuel i prev, i ≤ j → j < i + fuel →
      (i = 0 ∨ sample (i - 1) = some prev) →
      waitLoop sample fuel i prev = (false, j + 1 - i) := by
  intro fuel
  induction fuel with
  | zero => intro i prev hij hjf _; omega
  | succ fuel ih =>
    intro i prev hij hjf hprev
    rcases Nat.lt_or_ge i j with hlt | hge
    · obtain ⟨s, hs⟩ := Option.isSome_iff_exists.mp (hsome i hlt)
      have hcond : ¬(0 < i ∧ s = prev) := by
        rintro ⟨hi, hsp⟩
        have hpv : sample (i - 1) = some prev := hprev.resolve_left (by omega)
        exact hne i hi hlt (by rw [hs, hpv, hsp])
      rw [waitLoop_succ_some_ne sample fuel i prev s hs hcond]
      rw [ih (i + 1) s (by omega) (by omega) (Or.inr (by simpa using hs))]
      simp
      omega
    · have hij2 : i = j := by omega
      subst hij2
      rw [waitLoop_succ_none sample fuel i prev hnone]
      simp

/-- Claim C4: the first time a size sample from the second onward equals
the immediately preceding sample, waitStableSize returns true immediately,
having taken only k + 1 of the effective attempts, without taking the
remaining samples; in particular a path whose size is unchanged across two
consecutive successful samples is declared stable within at most the
effective number of attempts. -/
theorem waitStableSize_short_circuit (sample : Nat → Option Int)
    (attempts settle : Int) (k : Nat) (hk1 : 1 ≤ k)
    (hk : k < effAttempts attempts)
    (hsome : ∀ j, j ≤ k → (sample j).isSome)
    (heq : sample k = sample (k - 1))
    (hne : ∀ j, 1 ≤ j → j < k → sample j ≠ sample (j - 1)) :
    waitStableSizeRun sample attempts settle = (true, k + 1) ∧
      k + 1 ≤ effAttempts attempts := by
  constructor
  · unfold waitStableSizeRun
    have h := waitLoop_first_eq sample k hk1 hsome heq hne
      (effAttempts attempts) 0 (-1) (by omega) (by omega) (Or.inl rfl)
    simpa using h
  · omega

/-- Witness for C4 at a constant stat history: stability is declared at
sample index 1 after exactly 2 samples out of an effective budget of 5. -/
theorem waitStableSize_short_circuit_wit :
    (1 ≤ 1 ∧ 1 < effAttempts 5 ∧
      (∀ j, j ≤ 1 → ((fun _ : Nat => some (3 : Int)) j).isSome) ∧
      (fun _ : Nat => some (3 : Int)) 1 = (fun _ : Nat => some (3 : Int)) 0 ∧
      (∀ j, 1 ≤ j → j < 1 →
        (fun _ : Nat => some (3 : Int)) j ≠ (fun _ : Nat => some (3 : Int)) (j - 1))) ∧
    waitStableSizeRun (fun _ : Nat => some (3 : Int)) 5 500 = (true, 1 + 1) ∧
      1 + 1 ≤ effAttempts 5 :=
  ⟨⟨le_refl 1, by decide, fun j _ => rfl, rfl, fun j h1 h2 => absurd h2 (by omega)⟩,
    waitStableSize_short_circuit (fun _ : Nat => some (3 : Int)) 5 500 1
      (le_refl 1) (by decide) (fun j _ => rfl) rfl
      (fun j h1 h2 => absurd h2 (by omega))⟩

/-- Claim C5: when every sample succeeds and no two consecutive samples
agree, waitStableSize takes exactly the effective number of attempts
samples and returns false. -/
theorem waitStableSize_exhausts (sample : Nat → Option Int)
    (attempts settle : Int)
    (hsome : ∀ j, j < effAttempts attempts → (sample j).isSome)
    (hne : ∀ j, 1 ≤ j → j < effAttempts attempts →
      sample j ≠ sample (j - 1)) :
    waitStableSizeRun sample attempts settle =
      (false, effAttempts attempts) := by
  unfold waitStableSizeRun
  have h := waitLoop_exhaust sample (effAttempts attempts) 0 (-1)
    (fun j _ h2 => hsome j (by omega))
    (fun j h1 _ h3 => hne j h1 (by omega))
    (Or.inl rfl)
  simpa using h

/-- Witness for C5: a history growing by one each sample is never stable;
with attempts 5 the run returns false after exactly 5 samples. -/
theorem waitStableSize_exhausts_wit :
    ((∀ j, j < effAttempts 5 → ((fun i : Nat => some (i : Int)) j).isSome) ∧
      (∀ j, 1 ≤ j → j < effAttempts 5 →
        (fun i : Nat => some (i : Int)) j ≠ (fun i : Nat => some (i : Int)) (j - 1))) ∧
    waitStableSizeRun (fun i : Nat => some (i : Int)) 5 500 =
      (false, effAttempts 5) :=
  ⟨⟨fun j _ => rfl, by decide⟩,
    waitStableSize_exhausts (fun i : Nat => some (i : Int)) 5 500
      (fun j _ => rfl) (by decide)⟩

/-- Claim C6: a failed sample at index j, with all earlier samples
successful and pairwise consecutive-distinct, makes waitStableSize return
false immediately at that sample, after j + 1 samples, without exhausting
the remaining attempts; with j = 0 a nonexistent path yields false after
the first sample. -/
theorem waitStableSize_fail_fast (sample : Nat → Option Int)
    (attempts settle : Int) (j : Nat)
    (hj : j < effAttempts attempts) (hnone : sample j = none)
    (hsome : ∀ m, m < j → (sample m).isSome)
    (hne : ∀ m, 1 ≤ m → m < j → sample m ≠ sample (m - 1)) :
    waitStableSizeRun sample attempts settle = (false, j + 1) ∧
      j + 1 ≤ effAttempts attempts := by
  constructor
  · unfold waitStableSizeRun
    have h := waitLoop_fail sample j hnone hsome hne
      (effAttempts attempts) 0 (-1) (by omega) (by omega) (Or.inl rfl)
    simpa using h
  · omega

/-- Witness for C6 at an all-failing stat history (nonexistent path):
false after the first sample, out of an effective budget of 5. -/
theorem waitStableSize_fail_fast_wit :
    (0 < effAttempts 5 ∧ (fun _ : Nat => (none : Option Int)) 0 = none ∧
      (∀ m, m < 0 → ((fun _ : Nat => (none : Option Int)) m).isSome) ∧
      (∀ m, 1 ≤ m → m < 0 →
        (fun _ : Nat => (none : Option Int)) m ≠
          (fun _ : Nat => (none : Option Int)) (m - 1))) ∧
    waitStableSizeRun (fun _ : Nat => (none : Option Int)) 5 500 =
        (false, 0 + 1) ∧
      0 + 1 ≤ effAttempts 5 :=
  ⟨⟨by decide, rfl, fun m h => absurd h (by omega),
      fun m h1 h2 => absurd h2 (by omega)⟩,
    waitStableSize_fail_fast (fun _ : Nat => (none : Option Int)) 5 500 0
      (by decide) rfl (fun m h => absurd h (by omega))
      (fun m h1 h2 => absurd h2 (by omega))⟩

/-- Claim C7: for attempts below 3, waitStableSize behaves exactly as with
attempts equal to 3 — the floor is enforced inside the prober itself: the
whole instrumented run, decision and sample count alike, coincides. -/
theorem waitStableSize_min_three (sample : Nat → Option Int)
    (a settle : Int) (ha : a < 3) :
    waitStableSizeRun sample a settle = waitStableSizeRun sample 3 settle ∧
      waitStableSize sample a settle = waitStableSize sample 3 settle := by
  have h : effAttempts a = effAttempts 3 := by
    rw [effAttempts_of_lt a ha]
    rfl
  refine ⟨?_, ?_⟩ <;> simp [waitStableSizeRun, waitStableSize, h]

/-- Witness for C7 at attempts 0: the run equals the run at attempts 3. -/
theorem waitStableSize_min_three_wit :
    (0 : Int) < 3 ∧
    waitStableSizeRun (fun i : Nat => some (i : Int)) 0 100 =
        waitStableSizeRun (fun i : Nat => some (i : Int)) 3 100 ∧
      waitStableSize (fun i : Nat => some (i : Int)) 0 100 =
        waitStableSize (fun i : Nat => some (i : Int)) 3 100 :=
  ⟨by decide,
    waitStableSize_min_three (fun i : Nat => some (i : Int)) 0 100 (by decide)⟩

/-- The attempt-count constant of CopyFile (fileutils.go line 89:
const attempts = 5). -/
def copyFileAttempts : Int := 5

/-- The settle-interval constant of CopyFile in milliseconds
(fileutils.go line 90: const settle = 500 * time.Millisecond). -/
def copyFileSettleMs : Int := 500

/-- Errors CopyFile can surface. -/
inductive CopyErr where
  | notStable : String → CopyErr
  | openFailed : String → CopyErr
  | createFailed : String → CopyErr
  | copyFailed : CopyErr
deriving DecidableEq

/-- Outcome of one CopyFile call: the returned value, the filesystem
content afterwards, the attempt count and settle interval handed to the
prober, and the discarded result of the final Sync (some b when the flush
was attempted and succeeded iff b, none when never reached). -/
structure CopyOutcome where
  res : Except CopyErr Unit
  fs : String → Option (List Nat)
  probeAttempts : Int
  probeSettleMs : Int
  flushOutcome : Option Bool

/-- CopyFile (fileutils.go lines 88-116). The world is given by the
current filesystem content fs, the stat history of each path (sample),
whether os.Create succeeds at a path (canCreate), whether and where
io.Copy fails (copyFailsAt = some k: fails after k bytes were written,
leaving dst partial; none: the copy completes), and whether the final
out.Sync succeeds (syncOk). Steps, as in the source: probe src with the
two built-in constants and fail not-stable on false; open src; create dst,
truncating whatever was there; stream the bytes; discard the Sync result;
return nil. -/
def CopyFile (fs : String → Option (List Nat))
    (sample : String → Nat → Option Int) (canCreate : String → Bool)
    (copyFailsAt : Option Nat) (syncOk : Bool)
    (src dst : String) : CopyOutcome :=
  if waitStableSize (sample src) copyFileAttempts copyFileSettleMs = false then
    ⟨.error (.notStable src), fs, copyFileAttempts, copyFileSettleMs, none⟩
  else
    match fs src with
    | none => ⟨.error (.openFailed src), fs, copyFileAttempts,
        copyFileSettleMs, none⟩
    | some content =>
      if canCreate dst = false then
        ⟨.error (.createFailed dst), fs, copyFileAttempts,
          copyFileSettleMs, none⟩
      else
        match copyFailsAt with
        | some k =>
          ⟨.error .copyFailed,
            fun p => if p = dst then some (content.take k) else fs p,
            copyFileAttempts, copyFileSettleMs, none⟩
        | none =>
          ⟨.ok (),
            fun p => if p = dst then some content else fs p,
            copyFileAttempts, copyFileSettleMs, some syncOk⟩

/-- Claim C1: on a source whose size samples are constant (unchanging
size), with dst creatable and the byte stream completing, CopyFile
returns success, afterwards dst holds exactly the bytes of src, the final
byte length of dst equals that of src, and every other path — whatever
content dst held before — is untouched (overwrite in place, no prompt,
no backup). -/
theorem CopyFile_stable_copies (fs : String → Option (List Nat))
    (sample : String → Nat → Option Int) (canCreate : String → Bool)
    (syncOk : Bool) (src dst : String) (s : Int) (c : List Nat)
    (hsamp : ∀ i, sample src i = some s)
    (hsrc : fs src = some c)
    (hcr : canCreate dst = true) :
    (CopyFile fs sample canCreate none syncOk src dst).res = .ok () ∧
    (CopyFile fs sample canCreate none syncOk src dst).fs dst = some c ∧
    ((CopyFile fs sample canCreate none syncOk src dst).fs dst).map
        List.length = (fs src).map List.length ∧
    (∀ p, p ≠ dst →
      (CopyFile fs sample canCreate none syncOk src dst).fs p = fs p) := by
  have hst : waitStableSize (sample src) copyFileAttempts copyFileSettleMs
      = true := by
    unfold waitStableSize
    rw [waitStableSizeRun_const (sample src) s copyFileAttempts
      copyFileSettleMs hsamp]
  refine ⟨?_, ?_, ?_, ?_⟩ <;>
    simp [CopyFile, hst, hsrc, hcr]
  intro p hp
  simp [hp]

/-- Witness for C1: a three-byte source with constant samples is copied
over a dst that previously held one byte; an unrelated path is untouched. -/
theorem CopyFile_stable_copies_wit :
    ((∀ i, (fun q : String => fun _ : Nat =>
        if q = "a.txt" then some (3 : Int) else none) "a.txt" i = some 3) ∧
      (fun q : String => if q = "a.txt" then some [1, 2, 3] else
        if q = "b.txt" then some [9] else none) "a.txt" = some [1, 2, 3] ∧
      (fun _ : String => true) "b.txt" = true) ∧
    ((CopyFile
        (fun q : String => if q = "a.txt" then some [1, 2, 3] else
          if q = "b.txt" then some [9] else none)
        (fun q : String => fun _ : Nat =>
          if q = "a.txt" then some (3 : Int) else none)
        (fun _ : String => true) none true "a.txt" "b.txt").res = .ok () ∧
      (CopyFile
        (fun q : String => if q = "a.txt" then some [1, 2, 3] else
          if q = "b.txt" then some [9] else none)
        (fun q : String => fun _ : Nat =>
          if q = "a.txt" then some (3 : Int) else none)
        (fun _ : String => true) none true "a.txt" "b.txt").fs "b.txt" =
          some [1, 2, 3] ∧
      ((CopyFile
        (fun q : String => if q = "a.txt" then some [1, 2, 3] else
          if q = "b.txt" then some [9] else none)
        (fun q : String => fun _ : Nat =>
          if q = "a.txt" then some (3 : Int) else none)
        (fun _ : String => true) none true "a.txt" "b.txt").fs "b.txt").map
          List.length =
        ((fun q : String => if q = "a.txt" then some [1, 2, 3] else
          if q = "b.txt" then some [9] else none) "a.txt").map List.length ∧
      (∀ p, p ≠ "b.txt" →
        (CopyFile
          (fun q : String => if q = "a.txt" then some [1, 2, 3] else
            if q = "b.txt" then some [9] else none)
          (fun q : String => fun _ : Nat =>
            if q = "a.txt" then some (3 : Int) else none)
          (fun _ : String => true) none true "a.txt" "b.txt").fs p =
          (fun q : String => if q = "a.txt" then some [1, 2, 3] else
            if q = "b.txt" then some [9] else none) p)) :=
  ⟨⟨fun i => rfl, rfl, rfl⟩,
    CopyFile_stable_copies
      (fun q : String => if q = "a.txt" then some [1, 2, 3] else
        if q = "b.txt" then some [9] else none)
      (fun q : String => fun _ : Nat =>
        if q = "a.txt" then some (3 : Int) else none)
      (fun _ : String => true) true "a.txt" "b.txt" 3 [1, 2, 3]
      (fun i => rfl) rfl rfl⟩

/-- Claim C3: when the prober says the source is not stable, CopyFile
returns the not-stable error carrying the source path and the filesystem
is completely unchanged — dst is neither created nor modified. -/
theorem CopyFile_not_stable_no_copy (fs : String → Option (List Nat))
    (sample : String → Nat → Option Int) (canCreate : String → Bool)
    (copyFailsAt : Option Nat) (syncOk : Bool) (src dst : String)
    (h : waitStableSize (sample src) copyFileAttempts copyFileSettleMs
      = false) :
    (CopyFile fs sample canCreate copyFailsAt syncOk src dst).res =
        .error (.notStable src) ∧
    (∀ p, (CopyFile fs sample canCreate copyFailsAt syncOk src dst).fs p
        = fs p) := by
  constructor <;> simp [CopyFile, h]

/-- Witness for C3: a source whose every stat fails (nonexistent path) is
reported not stable and the pre-existing dst content [7] is untouched. -/
theorem CopyFile_not_stable_no_copy_wit :
    waitStableSize ((fun _ : String => fun _ : Nat =>
        (none : Option Int)) "gone.txt") copyFileAttempts copyFileSettleMs
      = false ∧
    ((CopyFile (fun q : String => if q = "d.txt" then some [7] else none)
        (fun _ : String => fun _ : Nat => (none : Option Int))
        (fun _ : String => true) none true "gone.txt" "d.txt").res =
          .error (.notStable "gone.txt") ∧
      (∀ p, (CopyFile (fun q : String => if q = "d.txt" then some [7] else none)
        (fun _ : String => fun _ : Nat => (none : Option Int))
        (fun _ : String => true) none true "gone.txt" "d.txt").fs p =
          (fun q : String => if q = "d.txt" then some [7] else none) p)) :=
  ⟨by decide,
    CopyFile_not_stable_no_copy
      (fun q : String => if q = "d.txt" then some [7] else none)
      (fun _ : String => fun _ : Nat => (none : Option Int))
      (fun _ : String => true) none true "gone.txt" "d.txt" (by decide)⟩

/-- Claim C8: after a completed byte copy CopyFile attempts the Sync flush
— the discarded flush result is recorded in the outcome — and returns
success whether that flush succeeds or fails. -/
theorem CopyFile_flush_swallowed (fs : String → Option (List Nat))
    (sample : String → Nat → Option Int) (canCreate : String → Bool)
    (syncOk : Bool) (src dst : String) (s : Int) (c : List Nat)
    (hsamp : ∀ i, sample src i = some s)
    (hsrc : fs src = some c)
    (hcr : canCreate dst = true) :
    (CopyFile fs sample canCreate none syncOk src dst).flushOutcome =
        some syncOk ∧
    (CopyFile fs sample canCreate none syncOk src dst).res = .ok () := by
  have hst : waitStableSize (sample src) copyFileAttempts copyFileSettleMs
      = true := by
    unfold waitStableSize
    rw [waitStableSizeRun_const (sample src) s copyFileAttempts
      copyFileSettleMs hsamp]
  constructor <;> simp [CopyFile, hst, hsrc, hcr]

/-- Witness for C8 with a failing flush (syncOk = false): the flush was
attempted, its failure recorded, and the call still returns success. -/
theorem CopyFile_flush_swallowed_wit :
    ((∀ i, (fun _ : String => fun _ : Nat => some (2 : Int)) "x" i = some 2) ∧
      (fun q : String => if q = "x" then some [5, 6] else none) "x" =
        some [5, 6] ∧
      (fun _ : String => true) "y" = true) ∧
    ((CopyFile (fun q : String => if q = "x" then some [5, 6] else none)
        (fun _ : String => fun _ : Nat => some (2 : Int))
        (fun _ : String => true) none false "x" "y").flushOutcome =
          some false ∧
      (CopyFile (fun q : String => if q = "x" then some [5, 6] else none)
        (fun _ : String => fun _ : Nat => some (2 : Int))
        (fun _ : String => true) none false "x" "y").res = .ok ()) :=
  ⟨⟨fun i => rfl, rfl, rfl⟩,
    CopyFile_flush_swallowed
      (fun q : String => if q = "x" then some [5, 6] else none)
      (fun _ : String => fun _ : Nat => some (2 : Int))
      (fun _ : String => true) false "x" "y" 2 [5, 6]
      (fun i => rfl) rfl rfl⟩

/-- Decimal digit accumulator for the integer parser below. -/
def digitsToNat : List Char → Nat → Option Nat
  | [], acc => some acc
  | c :: cs, acc =>
    if 48 ≤ c.toNat ∧ c.toNat ≤ 57 then
      digitsToNat cs (acc * 10 + (c.toNat - 48))
    else none

/-- An integer parser for the spec comparison: an optional leading minus
sign followed by at least one decimal digit ("parseable as an integer"). -/
def parseInteger (s : String) : Option Int :=
  match s.data with
  | [] => none
  | c :: cs =>
    if c = '-' then
      match cs with
      | [] => none
      | _ :: _ => (digitsToNat cs 0).map (fun n => -(n : Int))
    else (digitsToNat (c :: cs) 0).map (fun n => (n : Int))

/-- The attempt-count resolution that the spec describes, written from the
words of the spec and not from the source, for comparison with what
CopyFile actually does: v is the value of the attempt-count environment
variable (none when unset); unset, unparsable or outside [3,20] falls back
to the default 5, otherwise the parsed value is used. -/
def specResolveAttempts (v : Option String) : Int :=
  match v with
  | none => 5
  | some s =>
    match parseInteger s with
    | none => 5
    | some n => if n < 3 ∨ 20 < n then 5 else n

/-- The settle-interval resolution that the spec describes, written from
the words of the spec and not from the source: v is the value of the
settle-interval environment variable in milliseconds; unset, unparsable
or outside [100,1000] falls back to the default 500. -/
def specResolveSettleMs (v : Option String) : Int :=
  match v with
  | none => 500
  | some s =>
    match parseInteger s with
    | none => 500
    | some n => if n < 100 ∨ 1000 < n then 500 else n

/-- Counterexample to claim C2 as stated: with the attempt-count variable
set to "10" (parseable and inside [3,20]) the resolution the spec
describes yields 10, and with the settle variable set to "200" it yields
200; yet a concrete CopyFile invocation hands the prober the built-in
constants 5 and 500 — the tunables used are not resolved from any
environment variable. -/
theorem CopyFile_env_cex :
    specResolveAttempts (some "10") = 10 ∧
    specResolveSettleMs (some "200") = 200 ∧
    (CopyFile (fun _ : String => (none : Option (List Nat)))
        (fun _ : String => fun _ : Nat => (none : Option Int))
        (fun _ : String => true) none true "s.txt" "d.txt").probeAttempts =
      copyFileAttempts ∧
    (CopyFile (fun _ : String => (none : Option (List Nat)))
        (fun _ : String => fun _ : Nat => (none : Option Int))
        (fun _ : String => true) none true "s.txt" "d.txt").probeSettleMs =
      copyFileSettleMs ∧
    (CopyFile (fun _ : String => (none : Option (List Nat)))
        (fun _ : String => fun _ : Nat => (none : Option Int))
        (fun _ : String => true) none true "s.txt" "d.txt").probeAttempts ≠
      specResolveAttempts (some "10") ∧
    (CopyFile (fun _ : String => (none : Option (List Nat)))
        (fun _ : String => fun _ : Nat => (none : Option Int))
        (fun _ : String => true) none true "s.txt" "d.txt").probeSettleMs ≠
      specResolveSettleMs (some "200") := by
  refine ⟨by decide, by decide, rfl, rfl, by decide, by decide⟩

/-- Claim C2 as amended: on every invocation CopyFile hands the stability
prober the built-in constants — 5 attempts and 500 ms settle — whatever
the world looks like; no environment variable is consulted, so no
validation, clamping or fallback ever takes place (and in particular an
override of 999, or of any in-range value, has no effect). -/
theorem CopyFile_constants_always (fs : String → Option (List Nat))
    (sample : String → Nat → Option Int) (canCreate : String → Bool)
    (copyFailsAt : Option Nat) (syncOk : Bool) (src dst : String) :
    (CopyFile fs sample canCreate copyFailsAt syncOk src dst).probeAttempts
        = 5 ∧
    (CopyFile fs sample canCreate copyFailsAt syncOk src dst).probeSettleMs
        = 500 := by
  constructor <;>
  · unfold CopyFile
    split
    · rfl
    · split
      · rfl
      · split
        · rfl
        · split <;> rfl

/-- Error of the CSV decode: a record whose field count differs from the
first record (the header), as encoding/csv reports with its default
per-record field count check. -/
inductive CsvErr where
  | fieldCount : CsvErr
deriving DecidableEq

/-- One data row of CsvToMap: the Go map built by the inner loop
dict[header[i]] = record[i] for i over the header indices in ascending
order (fileutils.go lines 141-143); a later duplicate header name
overwrites the earlier value for that key. -/
def buildRow (header record : List String) : String → Option String :=
  (header.zip record).foldl
    (fun m kv => fun x => if x = kv.1 then some kv.2 else m x)
    (fun _ => none)

/-- The read loop of CsvToMap (fileutils.go lines 130-147) after the
header record has been consumed: each further record is checked against
the header field count (the csv reader yields an error on a mismatching
record and the loop returns it), zipped positionally with the header into
one row, and appended to the accumulated rows. -/
def csvToMapLoop (header : List String)
    (acc : List (String → Option String)) :
    List (List String) → Except CsvErr (List (String → Option String))
  | [] => .ok acc
  | record :: rest =>
    if record.length = header.length then
      csvToMapLoop header (acc ++ [buildRow header record]) rest
    else .error .fieldCount

/-- CsvToMap (fileutils.go lines 119-149) on the decoded records of the
file, in file order: the first record becomes the header and is never
emitted as data; the remaining records become the rows; a file with no
records yields no rows. -/
def CsvToMap (records : List (List String)) :
    Except CsvErr (List (String → Option String)) :=
  match records with
  | [] => .ok []
  | header :: rest => csvToMapLoop header [] rest

theorem csvToMapLoop_ok (header : List String) :
    ∀ (rest : List (List String)) (acc : List (String → Option String)),
      (∀ r ∈ rest, r.length = header.length) →
      csvToMapLoop header acc rest =
        .ok (acc ++ rest.map (buildRow header)) := by
  intro rest
  induction rest with
  | nil => intro acc _; simp [csvToMapLoop]
  | cons record rest ih =>
    intro acc hlen
    have h1 : record.length = header.length := hlen record (by simp)
    rw [csvToMapLoop, if_pos h1,
      ih (acc ++ [buildRow header record]) (fun r hr => hlen r (by simp [hr]))]
    simp

/-- Claim C9: on a decodable CSV file the first record is the header and
is never emitted as a data row; every subsequent record is zipped
positionally with the header into one row (header entry i mapped to
record entry i), the rows come back in file order, and a file with zero
data rows yields the empty row sequence as success, not an error. -/
theorem CsvToMap_rows (header : List String) (rest : List (List String))
    (hlen : ∀ r ∈ rest, r.length = header.length) :
    CsvToMap (header :: rest) = .ok (rest.map (buildRow header)) := by
  rw [CsvToMap, csvToMapLoop_ok header rest [] hlen]
  simp

/-- Witness for C9, the round trip of the spec: header a,b with data rows
1,2 and 3,4 yields exactly two rows with the expected cells in order, and
the same header with zero data rows yields the empty row sequence. -/
theorem CsvToMap_rows_wit :
    (∀ r ∈ [["1", "2"], ["3", "4"]],
      List.length r = (["a", "b"] : List String).length) ∧
    CsvToMap [["a", "b"], ["1", "2"], ["3", "4"]] =
      .ok ([["1", "2"], ["3", "4"]].map (buildRow ["a", "b"])) ∧
    buildRow ["a", "b"] ["1", "2"] "a" = some "1" ∧
    buildRow ["a", "b"] ["1", "2"] "b" = some "2" ∧
    buildRow ["a", "b"] ["3", "4"] "a" = some "3" ∧
    buildRow ["a", "b"] ["3", "4"] "b" = some "4" ∧
    CsvToMap [["a", "b"]] = .ok [] :=
  ⟨by decide,
    CsvToMap_rows ["a", "b"] [["1", "2"], ["3", "4"]] (by decide),
    rfl, rfl, rfl, rfl,
    CsvToMap_rows ["a", "b"] [] (by decide)⟩

/-- A directory tree: the base-name component of the entry and, for a
directory, its children in the order filepath.Walk enumerates them (Walk
reads each directory and sorts the names, so child lists are taken to be
in that enumeration order). -/
inductive FsTree where
  | file : String → FsTree
  | dir : String → List FsTree → FsTree

/-- The base name of the entry, as info.Name() returns it. -/
def FsTree.name : FsTree → String
  | .file n => n
  | .dir n _ => n

/-- strings.HasPrefix combined with strings.HasSuffix: the filter
SubFileList applies to an entry base name (fileutils.go line 45). -/
def nameMatches (pre suf n : String) : Bool :=
  pre.data.isPrefixOf n.data && suf.data.isSuffixOf n.data

mutual
/-- filepath.Walk with the walk function of SubFileList: visit the entry
itself first, appending its full path when its base name passes the
filter, then descend into its children with the path extended by the
separator and the child name. -/
def walkTree (pre suf path : String) : FsTree → List String
  | .file n => if nameMatches pre suf n then [path] else []
  | .dir n children =>
    (if nameMatches pre suf n then [path] else []) ++
      walkForest pre suf path children

/-- The walk over the children of one directory, left to right. -/
def walkForest (pre suf path : String) : List FsTree → List String
  | [] => []
  | c :: cs =>
    walkTree pre suf (path ++ "/" ++ c.name) c ++ walkForest pre suf path cs
end

/-- SubFileList (fileutils.go lines 37-54): walk the subtree rooted at
path and return, in visit order, the full paths of the entries whose base
name passes the filter. The tree argument models the filesystem subtree
at path; its root name models the base name of path, which is what
info.Name() yields when Walk visits the root itself. -/
def SubFileList (path : String) (root : FsTree) (pre suf : String) :
    List String :=
  walkTree pre suf path root

/-- Claim C10: SubFileList applies the filter to the walk root itself —
whenever the base name of the root passes the filter, the returned list
starts with the root path itself, not only the entries beneath it; and
the empty filter is passed by every base name, so with empty pre and suf
this holds for every root path. -/
theorem SubFileList_includes_root (path : String) (t : FsTree)
    (pre suf : String) (h : nameMatches pre suf t.name = true) :
    (∃ rest, SubFileList path t pre suf = path :: rest) ∧
      nameMatches "" "" t.name = true := by
  constructor
  · cases t with
    | file n =>
      refine ⟨[], ?_⟩
      simp only [FsTree.name] at h
      simp [SubFileList, walkTree, h]
    | dir n children =>
      refine ⟨walkForest pre suf path children, ?_⟩
      simp only [FsTree.name] at h
      simp [SubFileList, walkTree, h]
  · cases t <;> simp [nameMatches, FsTree.name, List.isSuffixOf]

/-- Witness for C10 on the tree of the spec example, with the empty
filter on the root call: the root path root itself is the head of the
result; and the walk with filter log_ and .txt over the same tree returns
exactly the two matching full paths, root excluded. -/
theorem SubFileList_includes_root_wit :
    nameMatches "" ""
        (FsTree.name (FsTree.dir "root" [FsTree.file "log_a.txt",
          FsTree.dir "sub" [FsTree.file "log_b.txt"],
          FsTree.file "other.txt"])) = true ∧
    ((∃ rest, SubFileList "root"
        (FsTree.dir "root" [FsTree.file "log_a.txt",
          FsTree.dir "sub" [FsTree.file "log_b.txt"],
          FsTree.file "other.txt"]) "" "" = "root" :: rest) ∧
      nameMatches "" ""
        (FsTree.name (FsTree.dir "root" [FsTree.file "log_a.txt",
          FsTree.dir "sub" [FsTree.file "log_b.txt"],
          FsTree.file "other.txt"])) = true) ∧
    SubFileList "root"
        (FsTree.dir "root" [FsTree.file "log_a.txt",
          FsTree.dir "sub" [FsTree.file "log_b.txt"],
          FsTree.file "other.txt"]) "log_" ".txt" =
      ["root/log_a.txt", "root/sub/log_b.txt"] :=
  ⟨rfl,
    SubFileList_includes_root "root"
      (FsTree.dir "root" [FsTree.file "log_a.txt",
        FsTree.dir "sub" [FsTree.file "log_b.txt"],
        FsTree.file "other.txt"]) "" "" rfl,
    by decide⟩

end Fileutils
